import Mathlib

/-!
Shallow embedding of the intelligence-aggregation and valuation-derivation
pipeline of `src/streamlit_app.py` (a single-file financial dashboard).

Conventions used throughout:
* Python floats are modelled as rationals (`ℚ`); the claims under study are
  exact-arithmetic identities and concrete decimal instances, where binary
  float rounding plays no role.
* A value fetched from the fundamentals mapping `i` with `i.get(key)` is
  modelled as `Option (Option ℚ)`: the outer `Option` is key presence in the
  mapping, the inner one distinguishes a present `None` value from a float.
  `i.get(key, default)` is `Option.getD`.
* Python truthiness on optional floats (`if peg:`, `if growth:`) is
  `truthyQ`: `None` and `0` are falsy, every other number is truthy.
* Network calls are oracles passed in as functions; a call wrapped in the
  source's bare `try`/`except` is an `Except Unit` value whose `error` case
  is the exception path.
-/

/-- Row of the hardcoded whale table `get_global_whale_data` (line 44).
The source column named `Type` is rendered here as `Typ` (`Type` is a Lean
universe keyword). -/
structure WhaleRow where
  Typ : String
  Ticker : String
  Name : String
  Move : String
  Details : String
  Date : String
deriving DecidableEq, Repr

/-- The master whale table returned by `get_global_whale_data` (lines 44-57),
row for row. -/
def get_global_whale_data : List WhaleRow :=
  [⟨"🐋 WHALE", "PLTR", "Scion (Michael Burry)", "BIG SHORT", "Bought Puts on 5M shares", "2026-02-14"⟩,
   ⟨"🐋 WHALE", "AMZN", "Altimeter (Brad Gerstner)", "ADD", "+$400M Cloud/AI Bet", "2026-02-14"⟩,
   ⟨"🐋 WHALE", "DPZ", "Berkshire (Buffett)", "NEW BUY", "New Stake in Domino's", "2026-02-14"⟩,
   ⟨"🐋 WHALE", "GS", "Duquesne (Druckenmiller)", "NEW BUY", "Initiated Position", "2026-02-14"⟩,
   ⟨"🐋 WHALE", "CMG", "Third Point (Dan Loeb)", "NEW BUY", "$175M New Stake", "2026-02-14"⟩,
   ⟨"🐋 WHALE", "META", "Pershing Square (Ackman)", "NEW BUY", "$2.0B Stake Initiation", "2026-02-11"⟩,
   ⟨"🏛️ POL", "PLTR", "Nancy Pelosi", "HOLD", "Maintaining Stake", "2026-01-22"⟩,
   ⟨"🐋 WHALE", "SOFI", "ARK Invest (Wood)", "BUY", "2.4M shares Add", "2026-02-17"⟩,
   ⟨"🐋 WHALE", "SNOW", "Altimeter (Brad Gerstner)", "ADD", "Top holding maintenance", "2026-02-14"⟩,
   ⟨"🐋 WHALE", "OPEN", "Lennar Corp", "INSIDER BUY", "13D/A Filing (Strategic)", "2026-02-10"⟩]

/-- One entry of a regulatory (SEC EDGAR atom) feed, as consumed by the
loop at lines 71-79: its `title`, `updated` timestamp and `link`. -/
structure Entry where
  title : String
  updated : String
  link : String
deriving DecidableEq, Repr

/-- One row appended to `feed_data` inside `get_combined_intelligence`
(lines 73-79 and 88-94): the dict with keys Source / Description / Date /
Type / Link.  The `Type` key is rendered as `Typ`. -/
structure FeedRecord where
  Source : String
  Description : String
  Date : String
  Typ : String
  Link : String
deriving DecidableEq, Repr

/-- Substring containment on character lists: Python's `x in title`. -/
def hasSub (needle : List Char) : List Char → Bool
  | [] => needle.isEmpty
  | c :: rest => needle.isPrefixOf (c :: rest) || hasSub needle rest

/-- Python's `x in s` on strings. -/
def strIn (x s : String) : Bool := hasSub x.data s.data

/-- Filter of line 72: `any(x in entry.title for x in ['13D', '13G', 'Form 4', '8-K'])`. -/
def qualifies (title : String) : Bool :=
  ["13D", "13G", "Form 4", "8-K"].any (fun x => strIn x title)

/-- The record built from one qualifying feed entry (lines 73-79);
`entry.updated[:10]` is the first ten characters of the timestamp. -/
def mkSecRecord (ticker : String) (e : Entry) : FeedRecord :=
  { Source := "🔔 " ++ ticker
    Description := e.title
    Date := e.updated.take 10
    Typ := "SEC LIVE"
    Link := e.link }

/-- Records contributed by one ticker's successfully fetched feed: the
entry loop of lines 71-79 (keep qualifying titles, normalise each). -/
def secRecordsFor (ticker : String) (entries : List Entry) : List FeedRecord :=
  (entries.filter (fun e => qualifies e.title)).map (mkSecRecord ticker)

/-- The live SEC scan of lines 66-80.  `fetch t cik` is the oracle for
fetching and parsing ticker `t`'s feed (the URL is built from `cik`); the
source wraps the whole per-ticker body in `try ... except: pass`, so a
failing ticker contributes nothing and the loop continues.  A CIK of `0`
models a falsy CIK (`if not cik: continue`). -/
def collectSec (fetch : String → Nat → Except Unit (List Entry)) :
    List (String × Nat) → List FeedRecord
  | [] => []
  | (t, cik) :: rest =>
    (if cik = 0 then []
     else match fetch t cik with
       | .error _ => []
       | .ok entries => secRecordsFor t entries)
    ++ collectSec fetch rest

/-- The record built from one whale row (lines 88-94). -/
def mkWhaleRecord (w : WhaleRow) : FeedRecord :=
  { Source := w.Typ ++ " " ++ w.Ticker
    Description := "**" ++ w.Name ++ "**: " ++ w.Move ++ " (" ++ w.Details ++ ")"
    Date := w.Date
    Typ := "WHALE ALERT"
    Link := "#" }

/-- The whale layer of lines 82-94: keep only table rows whose ticker is in
the portfolio (`whale_df['Ticker'].isin(portfolio_tickers)`), then append a
record per surviving row, in table order. -/
def whaleRecords (portfolio_tickers : List String) : List FeedRecord :=
  (get_global_whale_data.filter (fun w => portfolio_tickers.contains w.Ticker)).map
    mkWhaleRecord

/-- String comparison used by the date sort: code-point lexicographic order,
which is how both Python and pandas compare `str` values.  It is stated on
the underlying character list so that it evaluates by kernel reduction; it
agrees with the `String` linear order (`dateLt_iff` below). -/
def dateLt (a b : String) : Bool := decide (a.data < b.data)

/-- Stable descending insertion by the string `Date` field: a new element is
placed after every earlier element whose date is ≥ its own. -/
def insertByDateDesc (r : FeedRecord) : List FeedRecord → List FeedRecord
  | [] => [r]
  | s :: rest =>
    if dateLt s.Date r.Date then r :: s :: rest else s :: insertByDateDesc r rest

/-- Model of line 98's `sort_values(by="Date", ascending=False)`: sort the
records by the `Date` string, descending.  The source uses the pandas
default sort kind, whose tie order among equal dates is a library internal
(pandas documents the default kind as not stable); this model fixes ties by
source-collection order, which matches the library's small-array insertion
path.  Every property proved below about this sort is tie-order independent
except where explicitly discussed. -/
def sortByDateDesc : List FeedRecord → List FeedRecord
  | [] => []
  | r :: rest => insertByDateDesc r (sortByDateDesc rest)

/-- `get_combined_intelligence` (lines 60-98): live SEC scan over the
CIK mapping, plus the portfolio-filtered whale layer; empty input gives the
empty frame (line 97), otherwise sort by `Date` descending and keep the
first 15 rows (`.head(15)`). -/
def get_combined_intelligence (fetch : String → Nat → Except Unit (List Entry))
    (portfolio_ciks : List (String × Nat)) (portfolio_tickers : List String) :
    List FeedRecord :=
  let feed_data := collectSec fetch portfolio_ciks ++ whaleRecords portfolio_tickers
  if feed_data.isEmpty then [] else (sortByDateDesc feed_data).take 15

/-- Exception raised inside `get_sp500_map`'s `try` body. -/
inductive PyError where
  | nameError
  | requestFailed
deriving DecidableEq, Repr

/-- The hardcoded fallback mapping of line 108. -/
def sp500Fallback : List (String × String) :=
  [("AAPL - Apple", "AAPL"), ("PLTR - Palantir", "PLTR"), ("SOFI - SoFi", "SOFI")]

/-- Evaluating the bare name `StringIO` at line 105: the module never
imports it (no `from io import StringIO` among lines 1-11), so name
resolution raises `NameError` unconditionally. -/
def stringIOName : Except PyError Unit := .error .nameError

/-- `get_sp500_map` (lines 100-108).  `httpGet` is the oracle for
`requests.get(url, ...)` returning the response text (or raising).  The
`try` body first performs the request, then evaluates `StringIO(res.text)`;
since `StringIO` is an unbound name this raises `NameError` before any
parsing, so the table-parsing code that follows is unreachable and is not
modelled.  The bare `except` returns the hardcoded fallback. -/
def get_sp500_map (httpGet : Except PyError String) : List (String × String) :=
  let attempt : Except PyError (List (String × String)) := do
    let _text ← httpGet
    let _ ← stringIOName
    pure []
  match attempt with
  | .ok m => m
  | .error _ => sp500Fallback

/-- The fundamentals mapping `i = yf.Ticker(sel).info`, restricted to the
keys the valuation block (lines 178-194) reads.  Each numeric field is
`Option (Option ℚ)`: outer `none` = key absent, `some none` = key present
with value `None`, `some (some x)` = float `x`.  `revenueGrowth` and
`ebitdaMargins` are fetched with default `0` and immediately used in
arithmetic, so they are modelled as absent-or-float (a present null there
would make the untyped source raise, outside every claim's scope). -/
structure Info where
  trailingPE : Option (Option ℚ)
  priceToSalesTrailing12Months : Option (Option ℚ)
  pegRatioKey : Option (Option ℚ)
  earningsGrowth : Option (Option ℚ)
  earningsQuarterlyGrowth : Option (Option ℚ)
  forwardEpsGrowth : Option (Option ℚ)
  revenueGrowth : Option ℚ
  ebitdaMargins : Option ℚ
  sector : Option (Option String)
deriving DecidableEq, Repr

/-- Python truthiness of an optional number: `None` and `0` are falsy. -/
def truthyQ : Option ℚ → Bool
  | none => false
  | some x => decide (x ≠ 0)

/-- Round-half-to-even on rationals, the rounding mode of Python's `round`. -/
def roundHalfEven (x : ℚ) : ℤ :=
  let f := Int.floor x
  let r := x - f
  if r < 1/2 then f
  else if 1/2 < r then f + 1
  else if 2 ∣ f then f else f + 1

/-- Python's `round(x, 2)`. -/
def round2 (x : ℚ) : ℚ := (roundHalfEven (x * 100) : ℚ) / 100

/-- Growth-estimate selection of line 180:
`i.get('earningsGrowth', i.get('earningsQuarterlyGrowth', i.get('forwardEpsGrowth')))`.
Python's `dict.get` returns the stored value whenever the key is present
(even a stored `None`), and only then falls back to the default, so the
first present key wins; the defaults are evaluated eagerly in Python but
have no side effects, so value-level nesting of `getD` is faithful. -/
def growthEstimate (i : Info) : Option ℚ :=
  i.earningsGrowth.getD (i.earningsQuarterlyGrowth.getD (i.forwardEpsGrowth.getD none))

/-- The PEG fallback of lines 178-181:

    peg = i.get('pegRatio')
    if not peg and pe:
        growth = ...
        if growth: peg = round(pe / (growth * 100), 2)

Inputs are the values of `i.get('pegRatio')`, `i.get('trailingPE')` and the
selected growth estimate.  Returns the final `peg` together with the spec's
`peg_is_derived` flag (true exactly when the fallback branch assigned). -/
def derivePeg (peg0 pe growth : Option ℚ) : Option ℚ × Bool :=
  match pe, growth with
  | some p, some g =>
    if truthyQ peg0 = false ∧ p ≠ 0 ∧ g ≠ 0 then
      (some (round2 (p / (g * 100))), true)
    else (peg0, false)
  | _, _ => (peg0, false)

/-- The composed PEG pipeline on a fundamentals mapping. -/
def valuationPeg (i : Info) : Option ℚ × Bool :=
  derivePeg (i.pegRatioKey.getD none) (i.trailingPE.getD none) (growthEstimate i)

/-- One row of the static benchmark table (lines 35-41). -/
structure Benchmark where
  PE : ℚ
  PS : ℚ
  Beta : ℚ
  Growth : ℚ
deriving DecidableEq, Repr

/-- The static sector benchmark table `SECTOR_BENCHMARKS` (lines 35-41),
as an association list in the dict's insertion order. -/
def SECTOR_BENCHMARKS : List (String × Benchmark) :=
  [("Technology", ⟨30, 7, 12/10, 14⟩),
   ("Financial Services", ⟨15, 3, 11/10, 5⟩),
   ("Healthcare", ⟨25, 5, 8/10, 8⟩),
   ("Consumer Cyclical", ⟨25, 5/2, 12/10, 7⟩),
   ("Communication Services", ⟨20, 4, 1, 9⟩)]

/-- Benchmark lookup of line 188:
`next((k for k in SECTOR_BENCHMARKS if k == sector), None)` — the first key
exactly equal to the sector name.  The source then indexes the table with
that key; since keys are unique, returning the key with its row is the same
thing.  A Python `None` sector compares unequal to every key. -/
def benchFor (sector : Option String) : Option (String × Benchmark) :=
  SECTOR_BENCHMARKS.find? (fun p => some p.1 == sector)

/-- Format `f"{x:+.0f}%"`: explicit sign, value rounded to an integer. -/
def fmtSignedPct (x : ℚ) : String :=
  (if x < 0 then "-" else "+") ++ toString (roundHalfEven x).natAbs ++ "%"

/-- Sector-relative PE of line 189:
`f"{((pe-B)/B)*100:+.0f}%" if bench and pe else "N/A"`, where `B` is the
matched benchmark's PE.  `bench` is truthy exactly when a (non-empty) key
matched; `pe` is truthy when present and non-zero. -/
def val_pe (bench : Option (String × Benchmark)) (pe : Option ℚ) : String :=
  match bench, pe with
  | some (_, b), some p =>
    if p ≠ 0 then fmtSignedPct (((p - b.PE) / b.PE) * 100) else "N/A"
  | _, _ => "N/A"

/-- Rule of 40 of line 185: `(rev_growth + ebitda_margin) * 100`, on the
already-defaulted fractional inputs. -/
def rule_of_40 (rev_growth ebitda_margin : ℚ) : ℚ :=
  (rev_growth + ebitda_margin) * 100

/-- Classification of line 194: `"Elite" if rule_of_40 >= 40 else "Sub-40"`. -/
def rule_of_40_label (r : ℚ) : String :=
  if 40 ≤ r then "Elite" else "Sub-40"

/-- Concrete oracle for witnesses: every fetch raises. -/
def fetchNone : String → Nat → Except Unit (List Entry) := fun _ _ => .error ()

/-- The first row of the whale table (Scion / PLTR), used in witnesses. -/
def burryRow : WhaleRow :=
  ⟨"🐋 WHALE", "PLTR", "Scion (Michael Burry)", "BIG SHORT", "Bought Puts on 5M shares", "2026-02-14"⟩

/-- A concrete qualifying feed entry, used in witnesses. -/
def entry8K : Entry := ⟨"8-K Material Event", "2026-03-02T12:00:00-04:00", "#"⟩

/-- Descending order by date: `a` may stand before `b` exactly when `a`'s
date string is not smaller (so `b.Date ≤ a.Date`). -/
def DateGe (a b : FeedRecord) : Prop := ¬ a.Date < b.Date

/-- Concrete fundamentals mapping for witnesses: annual growth present. -/
def iAnnual : Info :=
  ⟨none, none, none, some (some (1/2)), some (some (1/4)), none, none, none, none⟩

theorem dateLt_iff {a b : String} : dateLt a b = true ↔ a < b := by
  rw [dateLt, decide_eq_true_eq]
  exact String.lt_iff_toList_lt.symm

theorem mem_insertByDateDesc {t r : FeedRecord} {l : List FeedRecord} :
    t ∈ insertByDateDesc r l ↔ t = r ∨ t ∈ l := by
  induction l with
  | nil => simp [insertByDateDesc]
  | cons s rest ih =>
    cases hb : dateLt s.Date r.Date
    · simp only [insertByDateDesc, hb, Bool.false_eq_true, if_neg, List.mem_cons, ih,
        not_false_eq_true]
      tauto
    · simp [insertByDateDesc, hb]

theorem pairwise_insertByDateDesc (r : FeedRecord) {l : List FeedRecord}
    (h : l.Pairwise DateGe) : (insertByDateDesc r l).Pairwise DateGe := by
  induction l with
  | nil => simp [insertByDateDesc]
  | cons s rest ih =>
    rcases List.pairwise_cons.mp h with ⟨hs, hrest⟩
    cases hb : dateLt s.Date r.Date
    · have hge : ¬s.Date < r.Date := by
        rw [← dateLt_iff, hb]
        simp
      simp only [insertByDateDesc, hb, Bool.false_eq_true, if_neg, not_false_eq_true]
      refine List.pairwise_cons.mpr ⟨?_, ih hrest⟩
      intro t ht
      rcases mem_insertByDateDesc.mp ht with rfl | htr
      · exact hge
      · exact hs t htr
    · have hlt : s.Date < r.Date := dateLt_iff.mp hb
      simp only [insertByDateDesc, hb, if_pos]
      refine List.pairwise_cons.mpr ⟨?_, h⟩
      intro t ht
      rcases List.mem_cons.mp ht with rfl | htr
      · exact lt_asymm hlt
      · exact lt_asymm (lt_of_le_of_lt (not_lt.mp (hs t htr)) hlt)

theorem pairwise_sortByDateDesc (l : List FeedRecord) :
    (sortByDateDesc l).Pairwise DateGe := by
  induction l with
  | nil => simp [sortByDateDesc]
  | cons r rest ih => exact pairwise_insertByDateDesc r ih

theorem mem_sortByDateDesc {t : FeedRecord} {l : List FeedRecord} :
    t ∈ sortByDateDesc l ↔ t ∈ l := by
  induction l with
  | nil => simp [sortByDateDesc]
  | cons r rest ih => simp [sortByDateDesc, mem_insertByDateDesc, ih]

theorem collectSec_typ {fetch : String → Nat → Except Unit (List Entry)}
    {l : List (String × Nat)} {r : FeedRecord}
    (h : r ∈ collectSec fetch l) : r.Typ = "SEC LIVE" := by
  induction l with
  | nil => simp [collectSec] at h
  | cons p rest ih =>
    obtain ⟨t, cik⟩ := p
    rw [collectSec] at h
    rcases List.mem_append.mp h with h1 | h2
    · split at h1
      · simp at h1
      · split at h1
        · simp at h1
        · rcases List.mem_map.mp h1 with ⟨e, _, rfl⟩
          rfl
    · exact ih h2

theorem collectSec_error_filter (fetch : String → Nat → Except Unit (List Entry))
    (t : String) (hf : ∀ cik, fetch t cik = .error ()) :
    ∀ l : List (String × Nat),
      collectSec fetch l = collectSec fetch (l.filter (fun p => p.1 != t)) := by
  intro l
  induction l with
  | nil => rfl
  | cons p rest ih =>
    obtain ⟨s, c⟩ := p
    by_cases hst : s = t
    · subst hst
      have h1 : (if c = 0 then ([] : List FeedRecord)
          else match fetch s c with
            | .error _ => []
            | .ok entries => secRecordsFor s entries) = [] := by
        simp [hf c]
      have h2 : List.filter (fun p => p.1 != s) ((s, c) :: rest) =
          List.filter (fun p => p.1 != s) rest := by
        simp [List.filter_cons]
      rw [collectSec, h1, h2, List.nil_append]
      exact ih
    · have h2 : List.filter (fun p => p.1 != t) ((s, c) :: rest) =
          (s, c) :: List.filter (fun p => p.1 != t) rest := by
        simp [List.filter_cons, hst]
      rw [collectSec, h2, collectSec, ih]

/-- C1: for every input portfolio (CIK mapping and ticker list) and every
set of alert records the adapters can deliver (any fetch oracle), the
sequence returned by `get_combined_intelligence` is sorted by the record
date in descending order (most recent first; dates are ISO strings, whose
lexicographic order is chronological order) and has at most 15 elements,
the display limit of `.head(15)`. -/
theorem c1_aggregator_sorted_and_truncated
    (fetch : String → Nat → Except Unit (List Entry))
    (portfolio_ciks : List (String × Nat)) (portfolio_tickers : List String) :
    (get_combined_intelligence fetch portfolio_ciks portfolio_tickers).Pairwise DateGe ∧
    (get_combined_intelligence fetch portfolio_ciks portfolio_tickers).length ≤ 15 := by
  unfold get_combined_intelligence
  by_cases h : (collectSec fetch portfolio_ciks ++ whaleRecords portfolio_tickers).isEmpty
  · simp [h]
  · simp only [h, if_neg, Bool.false_eq_true, not_false_eq_true]
    constructor
    · exact List.Pairwise.sublist (List.take_sublist 15 _) (pairwise_sortByDateDesc _)
    · exact List.length_take_le 15 _

/-- C3: no whale or political record whose ticker is outside the current
portfolio appears in the aggregator's output — every output record of type
WHALE ALERT (the type given to all rows of the whale/political table) comes
from a table row whose ticker the portfolio contains. -/
theorem c3_output_whales_in_portfolio
    (fetch : String → Nat → Except Unit (List Entry))
    (portfolio_ciks : List (String × Nat)) (portfolio_tickers : List String)
    (r : FeedRecord)
    (hmem : r ∈ get_combined_intelligence fetch portfolio_ciks portfolio_tickers)
    (hTyp : r.Typ = "WHALE ALERT") :
    ∃ w, w ∈ get_global_whale_data ∧ portfolio_tickers.contains w.Ticker = true ∧
      r = mkWhaleRecord w := by
  unfold get_combined_intelligence at hmem
  by_cases h : (collectSec fetch portfolio_ciks ++ whaleRecords portfolio_tickers).isEmpty
  · simp [h] at hmem
  · simp only [h, if_neg, Bool.false_eq_true, not_false_eq_true] at hmem
    have h2 : r ∈ sortByDateDesc
        (collectSec fetch portfolio_ciks ++ whaleRecords portfolio_tickers) :=
      (List.take_sublist 15 _).subset hmem
    rcases List.mem_append.mp (mem_sortByDateDesc.mp h2) with hsec | hwh
    · have hcontra : ("SEC LIVE" : String) = "WHALE ALERT" := (collectSec_typ hsec) ▸ hTyp
      simp at hcontra
    · rcases List.mem_map.mp hwh with ⟨w, hwf, rfl⟩
      rcases List.mem_filter.mp hwf with ⟨hwt, hwc⟩
      exact ⟨w, hwt, hwc, rfl⟩

/-- Witness for C3 at a concrete input: with portfolio `["PLTR"]` and a
failing fetch oracle, the Scion/PLTR whale record is in the output, and the
theorem produces its originating table row. -/
theorem c3_output_whales_in_portfolio_witness :
    ∃ w, w ∈ get_global_whale_data ∧ (["PLTR"] : List String).contains w.Ticker = true ∧
      mkWhaleRecord burryRow = mkWhaleRecord w :=
  c3_output_whales_in_portfolio fetchNone [] (["PLTR"]) (mkWhaleRecord burryRow)
    (by decide) rfl

/-- C4 counterexample: the claim as stated fails when `trailing_pe` is
present but equal to `0`.  With `peg_ratio` absent, `trailing_pe = 0` and
growth estimate `0.1` (present and non-zero), the claim predicts a derived
`peg = round(0 / (0.1 * 100), 2)` marked as derived, but the source's guard
`if not peg and pe:` treats the present value `0.0` as falsy and skips the
derivation, leaving PEG unknown and underived. -/
theorem c4_claim_counterexample_zero_pe :
    ¬(derivePeg none (some 0) (some (1/10)) =
      (some (round2 (0 / ((1/10) * 100))), true)) := by
  norm_num [derivePeg, truthyQ]

/-- C4 (amended): if the upstream `peg_ratio` is absent, `trailing_pe` is
present *and non-zero* (the source tests Python truthiness, not mere
presence), and a growth estimate is available and non-zero, the derivation
computes `peg = round(trailing_pe / (growth * 100), 2)` and marks it
derived; in particular `trailing_pe = 20`, `growth = 0.1` yields `2.0`. -/
theorem c4_peg_fallback_derivation (p g : ℚ) (hp : p ≠ 0) (hg : g ≠ 0) :
    derivePeg none (some p) (some g) = (some (round2 (p / (g * 100))), true) ∧
    derivePeg none (some 20) (some (1/10)) = (some 2, true) := by
  constructor
  · simp [derivePeg, truthyQ, hp, hg]
  · norm_num [derivePeg, truthyQ, round2, roundHalfEven]

/-- Witness for C4 at trailing_pe 20, growth 0.1. -/
theorem c4_peg_fallback_derivation_witness :
    derivePeg none (some 20) (some (1/10)) =
      (some (round2 (20 / ((1/10) * 100))), true) :=
  (c4_peg_fallback_derivation 20 (1/10) (by norm_num) (by norm_num)).1

/-- C5: with `peg_ratio` absent and `trailing_pe` present, a growth
estimate that is zero or absent leaves PEG unknown and underived — the
guard `if growth:` explicitly skips the division, so no division by zero
and no error path exists for any such input. -/
theorem c5_peg_skipped_zero_or_absent_growth (p : ℚ) (g : Option ℚ)
    (hg : g = none ∨ g = some 0) :
    derivePeg none (some p) g = (none, false) := by
  rcases hg with rfl | rfl
  · rfl
  · simp [derivePeg]

/-- Witness for C5 at trailing_pe 20, absent growth. -/
theorem c5_peg_skipped_zero_or_absent_growth_witness :
    derivePeg none (some 20) none = (none, false) :=
  c5_peg_skipped_zero_or_absent_growth 20 none (Or.inl rfl)

/-- C6: the growth estimate of line 180 is selected in priority order
annual (`earningsGrowth`), then quarterly (`earningsQuarterlyGrowth`),
then forward EPS growth: the first key present in the mapping supplies the
value, and later sources cannot influence the result once an earlier key is
present (Python's `dict.get` falls back only on key absence). -/
theorem c6_growth_estimate_priority (i : Info) :
    (∀ v, i.earningsGrowth = some v → growthEstimate i = v) ∧
    (i.earningsGrowth = none → ∀ v, i.earningsQuarterlyGrowth = some v →
      growthEstimate i = v) ∧
    (i.earningsGrowth = none → i.earningsQuarterlyGrowth = none →
      ∀ v, i.forwardEpsGrowth = some v → growthEstimate i = v) ∧
    (i.earningsGrowth = none → i.earningsQuarterlyGrowth = none →
      i.forwardEpsGrowth = none → growthEstimate i = none) := by
  refine ⟨?_, ?_, ?_, ?_⟩
  · intro v hv
    simp [growthEstimate, hv]
  · intro h1 v hv
    simp [growthEstimate, h1, hv]
  · intro h1 h2 v hv
    simp [growthEstimate, h1, h2, hv]
  · intro h1 h2 h3
    simp [growthEstimate, h1, h2, h3]

/-- Witness for C6: a mapping with both annual and quarterly growth present
selects the annual value. -/
theorem c6_growth_estimate_priority_witness :
    growthEstimate iAnnual = some (1/2) :=
  (c6_growth_estimate_priority iAnnual).1 (some (1/2)) rfl

/-- C7: `rule_of_40_pct = (revenue_growth + ebitda_margin) * 100` on
fractional inputs, classified Elite exactly when the result is ≥ 40 (an
inclusive boundary); a sector with no exact-name match in the benchmark
table yields a sector-relative PE of N/A; and the concrete instance
`revenue_growth = 0.30`, `ebitda_margin = 0.15`, unmatched sector gives
45.0, Elite, and N/A. -/
theorem c7_rule_of_40_and_sector_relative :
    (∀ rev_growth ebitda_margin : ℚ,
      rule_of_40 rev_growth ebitda_margin = (rev_growth + ebitda_margin) * 100) ∧
    (∀ r : ℚ, rule_of_40_label r = "Elite" ↔ 40 ≤ r) ∧
    (∀ (sector : String) (pe : Option ℚ),
      (∀ p ∈ SECTOR_BENCHMARKS, p.1 ≠ sector) →
      val_pe (benchFor (some sector)) pe = "N/A") ∧
    rule_of_40 (3/10) (3/20) = 45 ∧
    rule_of_40_label (rule_of_40 (3/10) (3/20)) = "Elite" ∧
    val_pe (benchFor (some ("Utilities"))) (some 20) = "N/A" := by
  refine ⟨fun a b => rfl, ?_, ?_, by norm_num [rule_of_40], ?_, rfl⟩
  · intro r
    rw [rule_of_40_label]
    split_ifs with h
    · simp [h]
    · exact iff_of_false (by decide) h
  · intro sector pe hn
    have hb : benchFor (some sector) = none := by
      apply List.find?_eq_none.mpr
      intro x hx h
      have hx1 : x.1 = sector := by simpa using h
      exact hn x hx hx1
    rw [hb]
    cases pe <;> rfl
  · norm_num [rule_of_40, rule_of_40_label]

/-- Witness for C7's unmatched-sector hypothesis at a concrete sector. -/
theorem c7_rule_of_40_and_sector_relative_witness :
    val_pe (benchFor (some ("Utilities"))) (some 99) = "N/A" :=
  c7_rule_of_40_and_sector_relative.2.2.1 ("Utilities") (some 99) (by decide)

/-- C8: a regulatory feed entry is retained by the filter of line 72 if and
only if its title contains one of the qualifying filing-type substrings
13D, 13G, Form 4, 8-K; in particular a title 8-K Material Event qualifies
and a title Annual Report does not. -/
theorem c8_regulatory_title_filter :
    (∀ (t : String) (es : List Entry) (e : Entry), e ∈ es →
      (mkSecRecord t e ∈ secRecordsFor t es ↔ qualifies e.title = true)) ∧
    qualifies ("8-K Material Event") = true ∧
    qualifies ("Annual Report") = false := by
  refine ⟨?_, by decide, by decide⟩
  intro t es e he
  constructor
  · intro hmem
    rcases List.mem_map.mp hmem with ⟨e2, he2, heq⟩
    rcases List.mem_filter.mp he2 with ⟨_, hq⟩
    have ht : e2.title = e.title := congrArg FeedRecord.Description heq
    rwa [ht] at hq
  · intro hq
    exact List.mem_map_of_mem _ (List.mem_filter.mpr ⟨he, hq⟩)

/-- Witness for C8: the 8-K entry is retained from a singleton feed. -/
theorem c8_regulatory_title_filter_witness :
    mkSecRecord ("AAPL") entry8K ∈ secRecordsFor ("AAPL") [entry8K] :=
  (c8_regulatory_title_filter.1 ("AAPL") [entry8K] entry8K
    (List.mem_singleton.mpr rfl)).mpr (by decide)

/-- C9: a fetch/parse failure for one ticker's regulatory feed is absorbed
inside the aggregation pass: the failing ticker contributes no records, and
the aggregator's output is exactly what it would be had that ticker not
been queried at all (so every other ticker's records are still collected).
The embedding is a total function into lists, mirroring that the source's
`try`/`except` never lets a per-ticker error escape the pass. -/
theorem c9_per_ticker_failure_absorbed
    (fetch : String → Nat → Except Unit (List Entry))
    (portfolio_ciks : List (String × Nat)) (portfolio_tickers : List String)
    (t : String) (hf : ∀ cik, fetch t cik = .error ()) :
    get_combined_intelligence fetch portfolio_ciks portfolio_tickers =
      get_combined_intelligence fetch (portfolio_ciks.filter (fun p => p.1 != t))
        portfolio_tickers := by
  unfold get_combined_intelligence
  rw [← collectSec_error_filter fetch t hf portfolio_ciks]

/-- Witness for C9: a single always-failing ticker yields the same output
as the empty CIK mapping. -/
theorem c9_per_ticker_failure_absorbed_witness :
    get_combined_intelligence fetchNone [("BMNR", 7)] [] =
      get_combined_intelligence fetchNone
        ([("BMNR", 7)].filter (fun p => p.1 != "BMNR")) [] :=
  c9_per_ticker_failure_absorbed fetchNone [("BMNR", 7)] [] ("BMNR") (fun _ => rfl)

/-- C10: for every HTTP outcome — error or any successful response text —
`get_sp500_map` returns the hardcoded three-entry fallback mapping, because
the parsing branch references the never-imported name `StringIO` and so
always raises before producing a table. -/
theorem c10_sp500_map_always_fallback (httpGet : Except PyError String) :
    get_sp500_map httpGet = sp500Fallback := by
  rcases httpGet with e | s <;> rfl
